import Mathlib

/-!
Verification of the Finesse monitoring application (app-finesse).

Shallow embedding of the core services:
* `EncryptionService` — symmetric encryption wrapper with integrity hashes
  (lib/services/encryptionService.ts),
* `StorageService` — login-attempt lockout, timer-settings validation and
  secure credential retrieval (lib/services/storageService.ts),
* `RateLimitService` — sliding-window request limiter
  (lib/services/rateLimitService.ts),
* `ScheduleService` — working-hours evaluation (lib/services/scheduleService.ts),
* `FinesseDetectorService` — open-tab detection (lib/services/finesseDetectorService.ts),
* the `useFinesse` monitoring orchestrator — poll/transition/notification
  state machine (hooks/useFinesse.ts).

JavaScript numbers holding millisecond epochs and minute counts are modelled
as `Int`; JS `Date.now()` values are passed explicitly as a `now : Int`
parameter.  External primitives (the AES cipher of crypto-js, the SHA-256
digest, `JSON.stringify`/`JSON.parse`) are modelled as parameters; only
the contracts the claims need are assumed, and always as explicit
hypotheses or structure fields stated next to their use.
-/

/-- Decimal digits of a numeral string folded into a natural number.
Helper shared by the `parseInt` and `HH:mm` parsing models. -/
def digitsToNat (cs : List Char) : Nat :=
  cs.foldl (fun a c => a * 10 + (c.toNat - 48)) 0

/-- Model of JavaScript `parseInt(s)` restricted to base 10: skip leading
whitespace, read an optional sign and then a maximal run of decimal digits;
`NaN` (no digits) is modelled as `none`. -/
def parseIntJS (s : String) : Option Int :=
  let cs := s.toList.dropWhile (fun c => c.isWhitespace)
  let signAndRest : Bool × List Char :=
    match cs with
    | '-' :: r => (true, r)
    | '+' :: r => (false, r)
    | r => (false, r)
  let ds := signAndRest.2.takeWhile (fun c => c.isDigit)
  if ds.isEmpty then none
  else if signAndRest.1 then some (-(digitsToNat ds : Int))
  else some ((digitsToNat ds : Int))

/-! ## EncryptionService (lib/services/encryptionService.ts)

`CryptoJS.AES` is an external primitive; it is modelled as a `Cipher`:
a pair of string functions whose only assumed property is the decryption
round-trip, which is the documented contract of AES with a fixed key.
`JSON.stringify` / `JSON.parse` are modelled as a `JsonCodec`; the
round-trip contract of the JSON library is taken as an explicit hypothesis
where a theorem needs it. -/

/-- Model of the external symmetric cipher (`CryptoJS.AES` with the fixed
process-wide secret key): decryption inverts encryption. -/
structure Cipher where
  enc : String → String
  dec : String → String
  dec_enc : ∀ m, dec (enc m) = m

/-- The identity cipher: a concrete `Cipher` instance used to evaluate the
service at specific inputs. -/
def idCipher : Cipher :=
  ⟨fun s => s, fun s => s, fun _ => rfl⟩

/-- Model of the external JSON library for values of type `α`:
`stringify` is `JSON.stringify` and `parse` is `JSON.parse` followed by the
cast to `α`. -/
structure JsonCodec (α : Type) where
  stringify : α → String
  parse : String → Except String α

namespace EncryptionService

/-- Function `encrypt` from encryptionService.ts: `CryptoJS.AES.encrypt(data, key)`. -/
def encrypt (c : Cipher) (data : String) : String :=
  c.enc data

/-- Function `decrypt` from encryptionService.ts: AES-decrypt, convert to UTF-8, and
throw (`Except.error`) when the decrypted string is empty
(`if (!decrypted) throw ...` — JS treats the empty string as falsy). -/
def decrypt (c : Cipher) (encryptedData : String) : Except String String :=
  let decrypted := c.dec encryptedData
  if decrypted = "" then Except.error "Falha na descriptografia dos dados"
  else Except.ok decrypted

/-- Function `generateHash` from encryptionService.ts: `SHA256(data + secretKey)`,
with the SHA-256 primitive passed in as `sha`. -/
def generateHash (sha : String → String) (secretKey data : String) : String :=
  sha (data ++ secretKey)

/-- Function `validateHash` from encryptionService.ts: recompute and compare. -/
def validateHash (sha : String → String) (secretKey data hash : String) : Bool :=
  generateHash sha secretKey data == hash

/-- Function `encryptObject` from encryptionService.ts: JSON-serialize, then encrypt. -/
def encryptObject {α : Type} (c : Cipher) (codec : JsonCodec α) (obj : α) : String :=
  encrypt c (codec.stringify obj)

/-- Function `decryptObject` from encryptionService.ts: decrypt, then JSON-parse;
a decryption error propagates. -/
def decryptObject {α : Type} (c : Cipher) (codec : JsonCodec α)
    (encryptedData : String) : Except String α :=
  match decrypt c encryptedData with
  | Except.error e => Except.error e
  | Except.ok s => codec.parse s

end EncryptionService

/-! ## StorageService (lib/services/storageService.ts)

The key-value store is modelled by passing the relevant stored record
(`Option` of the record type, `none` = key absent) in and out of each
operation. -/

/-- Structure `UserCredentials` from types/finesse. -/
structure UserCredentials where
  username : String
  agentId : String
  password : String

/-- Structure `SecureCredentials` from storageService.ts: the persisted encrypted
credential record. -/
structure SecureCredentials where
  encryptedData : String
  hash : String
  timestamp : Int

/-- Structure `SecurityConfig` from storageService.ts. `lockoutDuration` and
`sessionTimeout` are in minutes. -/
structure SecurityConfig where
  maxLoginAttempts : Nat
  lockoutDuration : Int
  sessionTimeout : Int

/-- The per-username login-attempt record stored under
`loginAttempts_<username>`. -/
structure LoginAttempts where
  count : Nat
  lastAttempt : Int

namespace StorageService

/-- Function `getLoginAttempts` from storageService.ts: stored record or the default
`{ count: 0, lastAttempt: 0 }`. -/
def getLoginAttempts (stored : Option LoginAttempts) : LoginAttempts :=
  stored.getD ⟨0, 0⟩

/-- Function `recordLoginAttempt` from storageService.ts: success removes the record;
failure increments the count and stamps the current time. -/
def recordLoginAttempt (success : Bool) (now : Int)
    (stored : Option LoginAttempts) : Option LoginAttempts :=
  if success then none
  else
    let attempts := getLoginAttempts stored
    some ⟨attempts.count + 1, now⟩

/-- Function `isAccountLocked` from storageService.ts.  Returns the boolean result
together with the stored record after the call (an expired lockout clears
the attempts via `recordLoginAttempt(true)`).  The JS test
`(now - lastAttempt) / 60000 < lockoutDuration` over real division is the
integer inequality `now - lastAttempt < lockoutDuration * 60000`. -/
def isAccountLocked (cfg : SecurityConfig) (now : Int)
    (stored : Option LoginAttempts) : Bool × Option LoginAttempts :=
  let attempts := getLoginAttempts stored
  if attempts.count < cfg.maxLoginAttempts then (false, stored)
  else
    let isStillLocked := now - attempts.lastAttempt < cfg.lockoutDuration * 60000
    if isStillLocked then (true, stored)
    else (false, recordLoginAttempt true now stored)

/-- Fold of `recordLoginAttempt(false)` over a list of attempt times:
a run of consecutive failed logins. -/
def applyFailedAttempts (times : List Int) (stored : Option LoginAttempts) :
    Option LoginAttempts :=
  times.foldl (fun st t => recordLoginAttempt false t st) stored

/-- Structure `TimerSettings` from types/finesse (minutes). -/
structure TimerSettings where
  standardTimer : Int
  pauseTimer : Int
deriving DecidableEq

/-- Function `saveTimerSettings` from storageService.ts: bounds validation before any
write; rejected settings leave the stored value untouched.  Returns the
boolean result and the stored record after the call. -/
def saveTimerSettings (minTimer maxTimer : Int) (settings : TimerSettings)
    (stored : Option TimerSettings) : Bool × Option TimerSettings :=
  if settings.standardTimer < minTimer || maxTimer < settings.standardTimer then
    (false, stored)
  else if settings.pauseTimer < minTimer || maxTimer < settings.pauseTimer then
    (false, stored)
  else if settings.pauseTimer ≤ settings.standardTimer then
    (false, stored)
  else (true, some settings)

/-- Function `getCredentials` from storageService.ts.  Returns the retrieved
credentials (or `none`) together with the stored record after the call
(`none` when `removeCredentials` ran).  The session-age test
`(now - timestamp) / 60000 > sessionTimeout` over real division is the
integer inequality `sessionTimeout * 60000 < now - timestamp`.  The
surrounding try/catch maps a decryption exception to
remove-record-and-return-null, so the model is total: no branch
propagates an error. -/
def getCredentials (cfg : SecurityConfig) (c : Cipher)
    (codec : JsonCodec UserCredentials) (sha : String → String)
    (secretKey : String) (now : Int) (stored : Option SecureCredentials) :
    Option UserCredentials × Option SecureCredentials :=
  match stored with
  | none => (none, none)
  | some secureData =>
    if cfg.sessionTimeout * 60000 < now - secureData.timestamp then
      (none, none)
    else
      match EncryptionService.decryptObject c codec secureData.encryptedData with
      | Except.error _ => (none, none)
      | Except.ok credentials =>
        if EncryptionService.validateHash sha secretKey
            (codec.stringify credentials) secureData.hash then
          (some credentials, some secureData)
        else (none, none)

end StorageService

/-! ## RateLimitService (lib/services/rateLimitService.ts)

The `requests` map is keyed by `userId:endpoint`; each operation touches
exactly one key, so the store is modelled per key as the list of recorded
timestamps for that key (`[]` = key absent; the stored `endpoint` field of
each record is constant per key and omitted). -/

/-- Configuration of `RateLimitService` (defaults: 5 requests / 60000 ms). -/
structure RLConfig where
  maxRequests : Nat
  windowMs : Int

namespace RateLimitService

/-- Function `checkLimit` from rateLimitService.ts for one `userId:endpoint` key:
filter the history to the sliding window, reject without writing when the
remaining count is at or over the maximum, otherwise write back the
filtered history plus the current timestamp.  Returns the boolean result
and the stored history after the call. -/
def checkLimit (cfg : RLConfig) (now : Int) (hist : List Int) :
    Bool × List Int :=
  let userRequests := hist.filter (fun t => now - t < cfg.windowMs)
  if cfg.maxRequests ≤ userRequests.length then (false, hist)
  else (true, userRequests ++ [now])

/-- Function `cleanup` from rateLimitService.ts restricted to one key: keep the
in-window entries (a key whose filtered list is empty is deleted, which in
the per-key model is the same empty list). -/
def cleanup (cfg : RLConfig) (now : Int) (hist : List Int) : List Int :=
  hist.filter (fun t => now - t < cfg.windowMs)

/-- An operation touching one key of the limiter: a `checkLimit` call or a
background `cleanup` sweep, each at some wall-clock time. -/
inductive RLOp where
  | check (now : Int)
  | sweep (now : Int)

/-- One operation applied to the stored history of a key. -/
def applyOp (cfg : RLConfig) (op : RLOp) (hist : List Int) : List Int :=
  match op with
  | RLOp.check now => (checkLimit cfg now hist).2
  | RLOp.sweep now => cleanup cfg now hist

/-- A sequence of limiter operations run against one key's stored history. -/
def runOps (cfg : RLConfig) (ops : List RLOp) (hist : List Int) : List Int :=
  match ops with
  | [] => hist
  | op :: rest => runOps cfg rest (applyOp cfg op hist)

/-- Number of stored timestamps of a key that lie within the sliding window
at time `now`. -/
def withinCount (cfg : RLConfig) (now : Int) (hist : List Int) : Nat :=
  (hist.filter (fun t => now - t < cfg.windowMs)).length

/-- Acceptance flags of a sequence of `checkLimit` calls at the given times
against one key, starting from the given stored history. -/
def runChecks (cfg : RLConfig) (times : List Int) (hist : List Int) :
    List Bool :=
  match times with
  | [] => []
  | t :: rest =>
    let r := checkLimit cfg t hist
    r.1 :: runChecks cfg rest r.2

end RateLimitService

/-! ## ScheduleService (lib/services/scheduleService.ts)

`new Date()` is abstracted into the pair of its observations the code
makes: `getDay()` (the `currentDay : Int`) and `format(now, 'HH:mm')`
(the `currentTime : String`).  The date-fns primitives are modelled by
`parseHHmm` (`parse(s, 'HH:mm', ref)` + `isValid`: `none` = invalid date)
and, for valid parses, `isWithinInterval t {start, end}` =
`start ≤ t ∧ t ≤ end` (inclusive on both ends). -/

/-- Structure `WorkSchedule` from scheduleService.ts. -/
structure WorkSchedule where
  id : String
  dayOfWeek : Int
  startTime : String
  endTime : String
  enabled : Bool

/-- Structure `ScheduleSettings` from scheduleService.ts. -/
structure ScheduleSettings where
  workSchedules : List WorkSchedule
  timezone : String
  notifyOutsideHours : Bool

/-- Model of date-fns `parse(s, 'HH:mm', ref)` followed by `isValid`:
a one- or two-digit hour below 24, a colon, and a one- or two-digit minute
below 60; the result is minutes since midnight, anything else is `none`. -/
def parseHHmm (s : String) : Option Nat :=
  let cs := s.toList
  let h := cs.takeWhile (fun c => c ≠ ':')
  match cs.dropWhile (fun c => c ≠ ':') with
  | ':' :: m =>
    if h.length = 0 || 2 < h.length || !(h.all Char.isDigit) then none
    else if m.length = 0 || 2 < m.length || !(m.all Char.isDigit) then none
    else
      let hv := digitsToNat h
      let mv := digitsToNat m
      if hv ≤ 23 && mv ≤ 59 then some (hv * 60 + mv) else none
  | _ => none

namespace ScheduleService

/-- Function `isWithinWorkingHours` from scheduleService.ts: absent settings or
`notifyOutsideHours` → true; no enabled entry for today → false; all three
times valid → inclusive interval test; any invalid time → fail open
(true). -/
def isWithinWorkingHours (scheduleSettings : Option ScheduleSettings)
    (currentDay : Int) (currentTime : String) : Bool :=
  match scheduleSettings with
  | none => true
  | some s =>
    if s.notifyOutsideHours then true
    else
      match s.workSchedules.find?
          (fun schedule => schedule.dayOfWeek == currentDay && schedule.enabled) with
      | none => false
      | some todaySchedule =>
        match parseHHmm todaySchedule.startTime, parseHHmm todaySchedule.endTime,
            parseHHmm currentTime with
        | some startT, some endT, some currentT =>
          decide (startT ≤ currentT ∧ currentT ≤ endT)
        | _, _, _ => true

/-- Function `shouldMonitor` from scheduleService.ts: Finesse open AND within
working hours. -/
def shouldMonitor (isFinesseOpen : Bool)
    (scheduleSettings : Option ScheduleSettings) (currentDay : Int)
    (currentTime : String) : Bool :=
  isFinesseOpen && isWithinWorkingHours scheduleSettings currentDay currentTime

end ScheduleService

/-! ## FinesseDetectorService (lib/services/finesseDetectorService.ts)

Host-integrated mode: `chrome.tabs.query({ url: [url + "/*"] })` returns
the open tabs whose URL matches one of the configured Finesse URL prefixes;
the query-callback then tests `tabs.find(tab => tab.active || tab.audible)
!== undefined && tabs.length > 0`.  A tab is modelled by its URL and its
`active`/`audible` flags; the `url + "/*"` match pattern is modelled as the
prefix test `url.startsWith(finesseUrl + "/")`. -/

/-- An open browser tab as observed by the detector. -/
structure Tab where
  url : String
  active : Bool
  audible : Bool

namespace FinesseDetectorService

/-- Model of JavaScript `url.startsWith(pre)` as a character-list prefix
test (the two agree on all strings). -/
def urlStartsWith (url pre : String) : Bool :=
  pre.toList.isPrefixOf url.toList

/-- A tab matches the detector's query when its URL extends one of the
configured Finesse base URLs (`isFinesseUrl` / the `url + "/*"` pattern of
`chrome.tabs.query`). -/
def matchesFinesseUrl (finesseUrls : List String) (t : Tab) : Bool :=
  finesseUrls.any (fun u => urlStartsWith t.url (u ++ "/"))

/-- Function `isFinesseOpen` from finesseDetectorService.ts in host-integrated mode
(error-free query): among the matching tabs, some tab must be active or
audible, and the matching list must be non-empty. -/
def isFinesseOpen (finesseUrls : List String) (tabs : List Tab) : Bool :=
  let matching := tabs.filter (matchesFinesseUrl finesseUrls)
  matching.any (fun t => t.active || t.audible) && decide (0 < matching.length)

end FinesseDetectorService

/-! ## Monitoring orchestrator (hooks/useFinesse.ts)

The authenticated polling loop of `useFinesse`.  An agent snapshot is
abstracted to the three fields the notification logic reads (the XML
`{ text: ... }` wrappers are folded into `Option String`, `none` = field
absent).  The mutable hook state relevant to notification decisions is
`lastStatusRef` and the pending pause-deadline timeout
(`pauseTimeoutRef`); the polling interval handles only re-trigger
`checkAgentStatus` and are not part of the notification state.
Notifications and tab-focus requests are modelled as an emitted event
list (`sendNotification` = one `notification` event carrying the type and
the optional numeric parameter, regardless of the configured delivery
channels). -/

/-- Modelled from the spec: the notification type enumeration
(types/notifications is not under src/); the spec names the NOT_READY,
TIME_EXCEEDED and DEVICE_ERROR notifications. -/
inductive NotificationType where
  | NOT_READY
  | TIME_EXCEEDED
  | DEVICE_ERROR
deriving DecidableEq

/-- An externally visible effect of the monitoring loop. -/
inductive MonEvent where
  | notification (t : NotificationType) (param : Option Int)
  | focusTab
deriving DecidableEq

/-- Whether an event is a notification (as opposed to a focus request). -/
def MonEvent.isNotification : MonEvent → Bool
  | MonEvent.notification _ _ => true
  | MonEvent.focusTab => false

/-- Agent snapshot fields read by the notification logic of useFinesse.ts
(`state.text`, `reasonCodeId.text`, `firstName`). -/
structure AgentStatus where
  state : Option String
  reasonCodeId : Option String
  firstName : Option String

/-- Mutable hook state that decides notifications: `lastStatusRef.current`
and the armed pause-deadline timeout.  `pausePending = some p` models a
pending `setTimeout` whose callback will send TIME_EXCEEDED with parameter
`p` (the `timerSettings.pauseTimer` captured when the timer was armed). -/
structure MonState where
  lastStatus : Option String
  pausePending : Option Int
deriving DecidableEq

namespace UseFinesse

open StorageService ScheduleService

/-- The composite dedup key of useFinesse.ts:
``${currentState}_${currentReasonCode}`` with JS `null` rendered as
"null". -/
def statusKey (status : AgentStatus) : String :=
  status.state.getD "null" ++ "_" ++ status.reasonCodeId.getD "null"

/-- Function `stopStatusCheck` from useFinesse.ts restricted to notification state:
clears the pending pause-deadline timeout (the polling intervals it also
clears are not modelled). -/
def stopStatusCheck (s : MonState) : MonState :=
  { s with pausePending := none }

/-- Function `handleStatusNotifications` from useFinesse.ts.  Entered on a status
transition; suppressed outside working hours; otherwise stops previous
timers and branches on `parseInt(reasonCodeId.text)`: `-1` → immediate
NOT_READY notification + focus; truthy and `> 0` → arm the single-shot
pause-deadline timeout (delay `pauseTimer * 60000` ms, not modelled as
time) and send nothing now; otherwise a literal `"NOT_READY"` state →
immediate NOT_READY notification + focus; anything else → nothing. -/
def handleStatusNotifications (ts : TimerSettings)
    (settings : Option ScheduleSettings) (day : Int) (time : String)
    (status : AgentStatus) (s : MonState) : MonState × List MonEvent :=
  if !(isWithinWorkingHours settings day time) then (s, [])
  else if status.reasonCodeId.bind parseIntJS = some (-1) then
    (stopStatusCheck s,
     [MonEvent.notification NotificationType.NOT_READY none,
      MonEvent.focusTab])
  else if (match status.reasonCodeId.bind parseIntJS with
           | some n => decide (0 < n)
           | none => false) then
    ({ stopStatusCheck s with pausePending := some ts.pauseTimer }, [])
  else if status.state = some "NOT_READY" then
    (stopStatusCheck s,
     [MonEvent.notification NotificationType.NOT_READY none,
      MonEvent.focusTab])
  else (stopStatusCheck s, [])

/-- Firing of the pause-deadline `setTimeout` armed by
`handleStatusNotifications`: one TIME_EXCEEDED notification carrying the
configured `pauseTimer` value, then a focus request; a timeout that is not
armed fires nothing (single-shot). -/
def firePauseTimer (s : MonState) : MonState × List MonEvent :=
  match s.pausePending with
  | some p =>
    ({ s with pausePending := none },
     [MonEvent.notification NotificationType.TIME_EXCEEDED (some p),
      MonEvent.focusTab])
  | none => (s, [])

/-- One tick of `checkAgentStatus` from useFinesse.ts for an authenticated
session.  `response` is the outcome of `connectApi` (`some` = HTTP success
with data, `none` = failure).  When monitoring is suppressed the remote is
not called and nothing is emitted; on success the transition handler runs
only when the composite `statusKey` differs from `lastStatusRef.current`;
on failure a DEVICE_ERROR notification is sent when still monitoring and
within working hours. -/
def checkAgentStatus (ts : TimerSettings)
    (settings : Option ScheduleSettings) (day : Int) (time : String)
    (isFinesseOpen : Bool) (response : Option AgentStatus) (s : MonState) :
    MonState × List MonEvent :=
  if !(shouldMonitor isFinesseOpen settings day time) then (s, [])
  else
    match response with
    | some newStatus =>
      if s.lastStatus ≠ some (statusKey newStatus) then
        handleStatusNotifications ts settings day time newStatus
          { s with lastStatus := some (statusKey newStatus) }
      else (s, [])
    | none =>
      if shouldMonitor isFinesseOpen settings day time &&
          isWithinWorkingHours settings day time then
        (s, [MonEvent.notification NotificationType.DEVICE_ERROR none])
      else (s, [])

/-- A run of `n` consecutive polling ticks, each receiving the same
`connectApi` outcome, with the emitted events concatenated in order. -/
def runPolls (ts : TimerSettings) (settings : Option ScheduleSettings)
    (day : Int) (time : String) (isFinesseOpen : Bool)
    (response : Option AgentStatus) : Nat → MonState → MonState × List MonEvent
  | 0, s => (s, [])
  | n + 1, s =>
    ((runPolls ts settings day time isFinesseOpen response n
        (checkAgentStatus ts settings day time isFinesseOpen response s).1).1,
     (checkAgentStatus ts settings day time isFinesseOpen response s).2
       ++ (runPolls ts settings day time isFinesseOpen response n
            (checkAgentStatus ts settings day time isFinesseOpen response s).1).2)

end UseFinesse

/-! ## Concrete instances used to evaluate the model at specific inputs -/

/-- A concrete JSON codec for `Unit` (serialized as the JSON text "null"),
satisfying the JSON round-trip contract. -/
def unitCodec : JsonCodec Unit :=
  ⟨fun _ => "null", fun s => if s = "null" then Except.ok () else Except.error "parse"⟩

/-- A concrete (arbitrary) codec for credentials, used to evaluate
`getCredentials` on branches that never parse successfully. -/
def failCredCodec : JsonCodec UserCredentials :=
  ⟨fun _ => "x", fun _ => Except.error "parse"⟩

/-- The schedule of the spec's example: Monday 08:00–18:00 enabled, every
other day disabled, `notifyOutsideHours = false`. -/
def mondayOnly : ScheduleSettings :=
  { workSchedules :=
      [⟨"1", 1, "08:00", "18:00", true⟩,
       ⟨"2", 2, "08:00", "18:00", false⟩,
       ⟨"3", 3, "08:00", "18:00", false⟩,
       ⟨"4", 4, "08:00", "18:00", false⟩,
       ⟨"5", 5, "08:00", "18:00", false⟩,
       ⟨"6", 6, "08:00", "12:00", false⟩,
       ⟨"7", 0, "08:00", "12:00", false⟩],
    timezone := "America/Sao_Paulo",
    notifyOutsideHours := false }

/-- Settings with `notifyOutsideHours = true` and no windows. -/
def notifyAlways : ScheduleSettings :=
  { workSchedules := [], timezone := "UTC", notifyOutsideHours := true }

/-! ## Theorems -/

/-- C3, counterexample: the round-trip claim fails at the empty string —
`decrypt` treats an empty decrypted string as corruption and errors, so
`decrypt(encrypt(""))` is an error, not `""`. -/
theorem decrypt_encrypt_empty_string_fails :
    EncryptionService.decrypt idCipher (EncryptionService.encrypt idCipher "")
      ≠ Except.ok "" := by
  simp [EncryptionService.decrypt, EncryptionService.encrypt, idCipher]

/-- C3 (amended): for every cipher satisfying the AES round-trip contract
and every NON-empty string `x`, `decrypt (encrypt x) = ok x`; and for every
JSON-codec round-trippable object whose serialization is non-empty (always
the case for `JSON.stringify` of an object),
`decryptObject (encryptObject obj)` restores `obj`. -/
theorem crypto_roundtrip_nonempty :
    (∀ (c : Cipher) (x : String), x ≠ "" →
       EncryptionService.decrypt c (EncryptionService.encrypt c x) = Except.ok x)
    ∧ (∀ (c : Cipher) (α : Type) (codec : JsonCodec α) (obj : α),
         codec.parse (codec.stringify obj) = Except.ok obj →
         codec.stringify obj ≠ "" →
         EncryptionService.decryptObject c codec
           (EncryptionService.encryptObject c codec obj) = Except.ok obj) := by
  constructor
  · intro c x hx
    unfold EncryptionService.decrypt EncryptionService.encrypt
    rw [c.dec_enc]
    simp [hx]
  · intro c α codec obj hparse hne
    unfold EncryptionService.decryptObject EncryptionService.encryptObject
      EncryptionService.encrypt EncryptionService.decrypt
    rw [c.dec_enc]
    simp only [if_neg hne]
    exact hparse

/-- C3 witness: the amended round-trip evaluated at the identity cipher on
"abc" and at the unit codec. -/
theorem crypto_roundtrip_nonempty_witness :
    EncryptionService.decrypt idCipher (EncryptionService.encrypt idCipher "abc")
        = Except.ok "abc"
    ∧ EncryptionService.decryptObject idCipher unitCodec
        (EncryptionService.encryptObject idCipher unitCodec ()) = Except.ok () :=
  ⟨crypto_roundtrip_nonempty.1 idCipher "abc" (by decide),
   crypto_roundtrip_nonempty.2 idCipher Unit unitCodec ()
     (by simp [unitCodec]) (by simp [unitCodec])⟩

/-- C7: saving timer settings with `pauseTimer ≤ standardTimer`, or with
either timer outside the `[minTimer, maxTimer]` bounds, returns false and
leaves the previously stored settings unchanged. -/
theorem saveTimerSettings_rejects_invalid (minTimer maxTimer : Int)
    (settings : StorageService.TimerSettings)
    (stored : Option StorageService.TimerSettings)
    (h : settings.pauseTimer ≤ settings.standardTimer
       ∨ settings.standardTimer < minTimer ∨ maxTimer < settings.standardTimer
       ∨ settings.pauseTimer < minTimer ∨ maxTimer < settings.pauseTimer) :
    StorageService.saveTimerSettings minTimer maxTimer settings stored
      = (false, stored) := by
  unfold StorageService.saveTimerSettings
  split_ifs with h1 h2 h3
  · rfl
  · rfl
  · rfl
  · exfalso
    simp only [Bool.or_eq_true, decide_eq_true_eq, not_or] at h1 h2
    rcases h with h | h | h | h | h
    · exact h3 h
    · exact h1.1 h
    · exact h1.2 h
    · exact h2.1 h
    · exact h2.2 h

/-- C7 witness: a settings value with `pauseTimer ≤ standardTimer` is
rejected and the stored value survives. -/
theorem saveTimerSettings_rejects_invalid_witness :
    StorageService.saveTimerSettings 1 120 ⟨10, 5⟩ (some ⟨5, 30⟩)
      = (false, some ⟨5, 30⟩) :=
  saveTimerSettings_rejects_invalid 1 120 ⟨10, 5⟩ (some ⟨5, 30⟩)
    (Or.inl (by decide))

/-- C8: for a stored credential record, an expired session, a failing
decryption, or a failing integrity hash each make `getCredentials` remove
the stored record and return `none`; the embedding is a total function, so
no branch propagates an exception. -/
theorem getCredentials_selfheals_on_invalid (cfg : SecurityConfig) (c : Cipher)
    (codec : JsonCodec UserCredentials) (sha : String → String)
    (secretKey : String) (now : Int) (sd : SecureCredentials)
    (h : cfg.sessionTimeout * 60000 < now - sd.timestamp
       ∨ (∃ e, EncryptionService.decryptObject c codec sd.encryptedData
             = Except.error e)
       ∨ (∀ creds,
            EncryptionService.decryptObject c codec sd.encryptedData
              = Except.ok creds →
            EncryptionService.validateHash sha secretKey
              (codec.stringify creds) sd.hash = false)) :
    StorageService.getCredentials cfg c codec sha secretKey now (some sd)
      = (none, none) := by
  unfold StorageService.getCredentials
  by_cases hexp : cfg.sessionTimeout * 60000 < now - sd.timestamp
  · simp [hexp]
  · simp only [if_neg hexp]
    rcases hdec : EncryptionService.decryptObject c codec sd.encryptedData
      with e | creds
    · rfl
    · rcases h with h | ⟨e, he⟩ | hh
      · exact absurd h hexp
      · rw [hdec] at he
        exact absurd he (by simp)
      · simp [hh creds hdec]

/-- C8 witness: an expired record (session older than the 60-minute
timeout) is discarded. -/
theorem getCredentials_selfheals_on_invalid_witness :
    StorageService.getCredentials ⟨3, 15, 60⟩ idCipher failCredCodec
        (fun s => s) "key" 3600001 (some ⟨"blob", "h", 0⟩) = (none, none) :=
  getCredentials_selfheals_on_invalid ⟨3, 15, 60⟩ idCipher failCredCodec
    (fun s => s) "key" 3600001 ⟨"blob", "h", 0⟩ (Or.inl (by decide))

/-- C9, counterexample: a single open Finesse tab that is neither active
nor audible matches the configured URL prefix, yet `isFinesseOpen` returns
false — open-ness is NOT equivalent to "some open tab matches a prefix". -/
theorem isFinesseOpen_misses_inactive_tab :
    FinesseDetectorService.isFinesseOpen ["https://fin"]
        [⟨"https://fin/desktop", false, false⟩] = false
    ∧ FinesseDetectorService.matchesFinesseUrl ["https://fin"]
        ⟨"https://fin/desktop", false, false⟩ = true := by
  constructor <;> decide

/-- C9 (amended): in host-integrated mode `isFinesseOpen` returns true iff
at least one open tab both matches a configured Finesse URL prefix and is
active or audible. -/
theorem isFinesseOpen_iff_active_or_audible_match (finesseUrls : List String)
    (tabs : List Tab) :
    FinesseDetectorService.isFinesseOpen finesseUrls tabs =
      tabs.any (fun t => FinesseDetectorService.matchesFinesseUrl finesseUrls t
        && (t.active || t.audible)) := by
  show ((tabs.filter (FinesseDetectorService.matchesFinesseUrl finesseUrls)).any
          (fun t => t.active || t.audible)
        && decide (0 < (tabs.filter
             (FinesseDetectorService.matchesFinesseUrl finesseUrls)).length)) = _
  rw [List.any_filter]
  by_cases h : tabs.any (fun t =>
      FinesseDetectorService.matchesFinesseUrl finesseUrls t
        && (t.active || t.audible)) = true
  · rw [h, Bool.true_and, decide_eq_true_eq]
    rcases List.any_eq_true.mp h with ⟨a, ha, hf⟩
    have hm := (Bool.and_eq_true _ _ |>.mp hf).1
    have hmem : a ∈ tabs.filter
        (FinesseDetectorService.matchesFinesseUrl finesseUrls) :=
      List.mem_filter.mpr ⟨ha, hm⟩
    exact List.length_pos.mpr (List.ne_nil_of_mem hmem)
  · rw [Bool.not_eq_true] at h
    rw [h, Bool.false_and]

/-- A run of failed login attempts yields a record whose count grew by the
number of attempts and whose `lastAttempt` is the time of the last one. -/
theorem applyFailedAttempts_spec (times : List Int) (t : Int) :
    ∀ stored : Option LoginAttempts, times.getLast? = some t →
      StorageService.applyFailedAttempts times stored =
        some ⟨(StorageService.getLoginAttempts stored).count + times.length, t⟩ := by
  induction times with
  | nil => intro stored h; exact absurd h (by simp)
  | cons t0 rest ih =>
    intro stored hlast
    cases rest with
    | nil =>
      simp only [List.getLast?_singleton, Option.some.injEq] at hlast
      subst hlast
      rfl
    | cons t1 rest' =>
      have hstep : StorageService.applyFailedAttempts (t0 :: t1 :: rest') stored
          = StorageService.applyFailedAttempts (t1 :: rest')
              (StorageService.recordLoginAttempt false t0 stored) := rfl
      rw [List.getLast?_cons_cons] at hlast
      rw [hstep, ih (StorageService.recordLoginAttempt false t0 stored) hlast]
      simp [StorageService.recordLoginAttempt, StorageService.getLoginAttempts]
      omega

/-- C4: after exactly `maxLoginAttempts` consecutive recorded failures, the
account is locked exactly while fewer than `lockoutDuration` minutes
(`lockoutDuration * 60000` ms) have passed since the last failed attempt:
`isAccountLocked` is true within that window and false from the moment it
has elapsed. -/
theorem lockout_after_max_failed_attempts (cfg : SecurityConfig)
    (times : List Int) (t now : Int)
    (hlen : times.length = cfg.maxLoginAttempts)
    (hlast : times.getLast? = some t) :
    (StorageService.isAccountLocked cfg now
        (StorageService.applyFailedAttempts times none)).1
      = decide (now - t < cfg.lockoutDuration * 60000) := by
  rw [applyFailedAttempts_spec times t none hlast]
  unfold StorageService.isAccountLocked StorageService.getLoginAttempts
  simp only [Option.getD_some, hlen]
  rw [if_neg (by simp)]
  by_cases hlock : now - t < cfg.lockoutDuration * 60000 <;> simp [hlock]

/-- C4 witness: three failed attempts with `maxLoginAttempts = 3` lock the
account immediately after the third failure, and the lock has lifted once
the 15-minute lockout has elapsed. -/
theorem lockout_after_max_failed_attempts_witness :
    (StorageService.isAccountLocked ⟨3, 15, 60⟩ 1000
        (StorageService.applyFailedAttempts [0, 500, 1000] none)).1 = true
    ∧ (StorageService.isAccountLocked ⟨3, 15, 60⟩ 901000
        (StorageService.applyFailedAttempts [0, 500, 1000] none)).1 = false := by
  constructor
  · rw [lockout_after_max_failed_attempts ⟨3, 15, 60⟩ [0, 500, 1000] 1000 1000
      (by decide) (by decide)]
    decide
  · rw [lockout_after_max_failed_attempts ⟨3, 15, 60⟩ [0, 500, 1000] 1000 901000
      (by decide) (by decide)]
    decide

/-- C5: `isWithinWorkingHours` is unconditionally true when settings are
absent or `notifyOutsideHours` holds; false when no enabled schedule entry
matches the current day; equal to the inclusive-interval test when all
three times parse; true (fail open) when any time fails to parse; and on
the Monday-only 08:00–18:00 schedule it is true at Monday 09:00 and false
at Monday 19:00 and Tuesday 09:00. -/
theorem working_hours_evaluation :
    (∀ (d : Int) (ct : String),
       ScheduleService.isWithinWorkingHours none d ct = true)
    ∧ (∀ (s : ScheduleSettings) (d : Int) (ct : String),
         s.notifyOutsideHours = true →
         ScheduleService.isWithinWorkingHours (some s) d ct = true)
    ∧ (∀ (s : ScheduleSettings) (d : Int) (ct : String),
         s.notifyOutsideHours = false →
         s.workSchedules.find? (fun w => w.dayOfWeek == d && w.enabled) = none →
         ScheduleService.isWithinWorkingHours (some s) d ct = false)
    ∧ (∀ (s : ScheduleSettings) (d : Int) (ct : String) (wk : WorkSchedule)
         (st en cu : Nat),
         s.notifyOutsideHours = false →
         s.workSchedules.find? (fun w => w.dayOfWeek == d && w.enabled) = some wk →
         parseHHmm wk.startTime = some st → parseHHmm wk.endTime = some en →
         parseHHmm ct = some cu →
         ScheduleService.isWithinWorkingHours (some s) d ct
           = decide (st ≤ cu ∧ cu ≤ en))
    ∧ (∀ (s : ScheduleSettings) (d : Int) (ct : String) (wk : WorkSchedule),
         s.notifyOutsideHours = false →
         s.workSchedules.find? (fun w => w.dayOfWeek == d && w.enabled) = some wk →
         (parseHHmm wk.startTime = none ∨ parseHHmm wk.endTime = none ∨
           parseHHmm ct = none) →
         ScheduleService.isWithinWorkingHours (some s) d ct = true)
    ∧ ScheduleService.isWithinWorkingHours (some mondayOnly) 1 "09:00" = true
    ∧ ScheduleService.isWithinWorkingHours (some mondayOnly) 1 "19:00" = false
    ∧ ScheduleService.isWithinWorkingHours (some mondayOnly) 2 "09:00" = false := by
  refine ⟨fun d ct => rfl, ?_, ?_, ?_, ?_, by decide, by decide, by decide⟩
  · intro s d ct hn
    unfold ScheduleService.isWithinWorkingHours
    simp [hn]
  · intro s d ct hn hfind
    unfold ScheduleService.isWithinWorkingHours
    simp [hn, hfind]
  · intro s d ct wk st en cu hn hfind hst hen hcu
    unfold ScheduleService.isWithinWorkingHours
    simp [hn, hfind, hst, hen, hcu]
  · intro s d ct wk hn hfind hfail
    unfold ScheduleService.isWithinWorkingHours
    rcases h1 : parseHHmm wk.startTime with _ | st1 <;>
      rcases h2 : parseHHmm wk.endTime with _ | en1 <;>
        rcases h3 : parseHHmm ct with _ | cu1 <;>
          simp_all

/-- C5 witness: with `notifyOutsideHours = true` the evaluation is true
even on a day without any window and with an unparsable current time. -/
theorem working_hours_evaluation_witness :
    ScheduleService.isWithinWorkingHours (some notifyAlways) 3 "zz" = true :=
  working_hours_evaluation.2.1 notifyAlways 3 "zz" rfl

/-- C6: `checkLimit` accepts exactly when the history restricted to the
sliding window is below `maxRequests`; a rejection records nothing and an
acceptance records exactly the evicted history plus the current timestamp.
Concretely, with max = 5 over a 60 s window, five calls are accepted, the
6th call inside the window is rejected, and a call after the window has
fully elapsed is accepted again. -/
theorem checkLimit_evict_compare_record :
    (∀ (cfg : RLConfig) (now : Int) (hist : List Int),
       ((RateLimitService.checkLimit cfg now hist).1
          = decide ((hist.filter (fun t => now - t < cfg.windowMs)).length
              < cfg.maxRequests))
       ∧ ((RateLimitService.checkLimit cfg now hist).1 = false →
            (RateLimitService.checkLimit cfg now hist).2 = hist)
       ∧ ((RateLimitService.checkLimit cfg now hist).1 = true →
            (RateLimitService.checkLimit cfg now hist).2
              = hist.filter (fun t => now - t < cfg.windowMs) ++ [now]))
    ∧ RateLimitService.runChecks ⟨5, 60000⟩
        [0, 10000, 20000, 30000, 40000, 50000, 110000] []
        = [true, true, true, true, true, false, true] := by
  constructor
  · intro cfg now hist
    unfold RateLimitService.checkLimit
    by_cases hle : cfg.maxRequests
        ≤ (hist.filter (fun t => now - t < cfg.windowMs)).length
    · simp [hle, Nat.not_lt.mpr hle]
    · simp [hle, Nat.lt_of_not_le hle]
  · decide

/-- C6 witness: the 6th call inside the window (history of five in-window
timestamps) is rejected and leaves the stored history unchanged. -/
theorem checkLimit_evict_compare_record_witness :
    (RateLimitService.checkLimit ⟨5, 60000⟩ 50000
        [0, 10000, 20000, 30000, 40000]).2 = [0, 10000, 20000, 30000, 40000] :=
  (checkLimit_evict_compare_record.1 ⟨5, 60000⟩ 50000
      [0, 10000, 20000, 30000, 40000]).2.1 (by decide)

/-- Filtering first can only shrink the result of a second filter. -/
theorem length_filter_filter_le (p q : Int → Bool) (l : List Int) :
    ((l.filter p).filter q).length ≤ (l.filter q).length := by
  induction l with
  | nil => simp
  | cons a l ih =>
    by_cases hp : p a <;> by_cases hq : q a <;>
      simp only [List.filter_cons, hp, hq, if_pos, if_neg, ite_true, ite_false,
        List.length_cons]
    · exact Nat.succ_le_succ ih
    · exact ih
    · exact Nat.le_succ_of_le ih
    · exact ih

/-- A single limiter operation keeps every sliding-window count of the
stored history at or below `maxRequests`. -/
theorem applyOp_preserves_invariant (cfg : RLConfig) (op : RateLimitService.RLOp)
    (hist : List Int)
    (hI : ∀ m : Int, RateLimitService.withinCount cfg m hist ≤ cfg.maxRequests) :
    ∀ m : Int, RateLimitService.withinCount cfg m
        (RateLimitService.applyOp cfg op hist) ≤ cfg.maxRequests := by
  intro m
  cases op with
  | sweep now =>
    exact le_trans
      (length_filter_filter_le (fun t => now - t < cfg.windowMs)
        (fun t => m - t < cfg.windowMs) hist) (hI m)
  | check now =>
    show RateLimitService.withinCount cfg m
        (RateLimitService.checkLimit cfg now hist).2 ≤ cfg.maxRequests
    unfold RateLimitService.checkLimit
    by_cases hle : cfg.maxRequests
        ≤ (hist.filter (fun t => now - t < cfg.windowMs)).length
    · simpa [hle] using hI m
    · simp only [hle, if_neg, ite_false]
      unfold RateLimitService.withinCount
      rw [List.filter_append]
      have h1 : ((hist.filter (fun t => now - t < cfg.windowMs)).filter
          (fun t => m - t < cfg.windowMs)).length
            ≤ (hist.filter (fun t => now - t < cfg.windowMs)).length :=
        List.length_filter_le _ _
      have h2 : (([now] : List Int).filter
          (fun t => m - t < cfg.windowMs)).length ≤ 1 := by
        by_cases hm : m - now < cfg.windowMs <;> simp [hm]
      rw [List.length_append]
      omega

/-- C10: starting from an absent key, any sequence of `checkLimit` calls
and cleanup sweeps leaves at most `maxRequests` stored timestamps inside
the sliding window of any instant; a rejected call leaves the stored
history unchanged, and an accepted call stores exactly one new timestamp
on top of the evicted history (so its in-window count grows by one). -/
theorem rate_limiter_invariant :
    (∀ (cfg : RLConfig) (ops : List RateLimitService.RLOp) (now : Int),
       RateLimitService.withinCount cfg now (RateLimitService.runOps cfg ops [])
         ≤ cfg.maxRequests)
    ∧ (∀ (cfg : RLConfig) (now : Int) (hist : List Int),
         (RateLimitService.checkLimit cfg now hist).1 = false →
         (RateLimitService.checkLimit cfg now hist).2 = hist)
    ∧ (∀ (cfg : RLConfig) (now : Int) (hist : List Int), 0 < cfg.windowMs →
         (RateLimitService.checkLimit cfg now hist).1 = true →
         RateLimitService.withinCount cfg now
             (RateLimitService.checkLimit cfg now hist).2
           = RateLimitService.withinCount cfg now hist + 1) := by
  refine ⟨?_, ?_, ?_⟩
  · intro cfg ops
    suffices h : ∀ hist : List Int,
        (∀ m : Int, RateLimitService.withinCount cfg m hist ≤ cfg.maxRequests) →
        ∀ m : Int, RateLimitService.withinCount cfg m
            (RateLimitService.runOps cfg ops hist) ≤ cfg.maxRequests by
      intro now
      exact h [] (fun m => by simp [RateLimitService.withinCount]) now
    induction ops with
    | nil => intro hist hI m; exact hI m
    | cons op rest ih =>
      intro hist hI m
      exact ih (RateLimitService.applyOp cfg op hist)
        (applyOp_preserves_invariant cfg op hist hI) m
  · intro cfg now hist hrej
    unfold RateLimitService.checkLimit at hrej ⊢
    by_cases hle : cfg.maxRequests
        ≤ (hist.filter (fun t => now - t < cfg.windowMs)).length
    · simp [hle]
    · simp [hle] at hrej
  · intro cfg now hist hw hacc
    unfold RateLimitService.checkLimit at hacc ⊢
    by_cases hle : cfg.maxRequests
        ≤ (hist.filter (fun t => now - t < cfg.windowMs)).length
    · simp [hle] at hacc
    · simp only [hle, if_neg, ite_false]
      unfold RateLimitService.withinCount
      rw [List.filter_append, List.filter_filter, List.length_append]
      have h1 : (hist.filter fun a =>
          decide (now - a < cfg.windowMs) && decide (now - a < cfg.windowMs))
            = hist.filter (fun t => now - t < cfg.windowMs) := by
        apply List.filter_congr
        intro a _
        by_cases h : now - a < cfg.windowMs <;> simp [h]
      rw [h1]
      have h2 : (([now] : List Int).filter
          (fun t => now - t < cfg.windowMs)).length = 1 := by
        simp [hw]
      omega

/-- C10 witness: an accepted call on a one-element in-window history grows
the in-window count from 1 to 2. -/
theorem rate_limiter_invariant_witness :
    RateLimitService.withinCount ⟨5, 60000⟩ 10
        (RateLimitService.checkLimit ⟨5, 60000⟩ 10 [0]).2
      = RateLimitService.withinCount ⟨5, 60000⟩ 10 [0] + 1 :=
  rate_limiter_invariant.2.2 ⟨5, 60000⟩ 10 [0] (by decide) (by decide)

/-- The transition handler never changes the dedup key
(`lastStatusRef.current`). -/
theorem handle_preserves_lastStatus (ts : StorageService.TimerSettings)
    (settings : Option ScheduleSettings) (day : Int) (time : String)
    (status : AgentStatus) (s : MonState) :
    (UseFinesse.handleStatusNotifications ts settings day time status s).1.lastStatus
      = s.lastStatus := by
  unfold UseFinesse.handleStatusNotifications UseFinesse.stopStatusCheck
  split_ifs <;> rfl

/-- A successful monitored poll always leaves `lastStatusRef.current` at
the composite key of the received snapshot. -/
theorem check_sets_lastStatus (ts : StorageService.TimerSettings)
    (settings : Option ScheduleSettings) (day : Int) (time : String)
    (r : AgentStatus) (s : MonState)
    (hmon : ScheduleService.shouldMonitor true settings day time = true) :
    (UseFinesse.checkAgentStatus ts settings day time true (some r) s).1.lastStatus
      = some (UseFinesse.statusKey r) := by
  unfold UseFinesse.checkAgentStatus
  simp only [hmon, Bool.not_true, Bool.false_eq_true, if_false]
  by_cases hkey : s.lastStatus ≠ some (UseFinesse.statusKey r)
  · rw [if_pos hkey, handle_preserves_lastStatus]
  · rw [if_neg hkey]
    exact not_ne_iff.mp hkey

/-- A successful monitored poll whose snapshot key equals the stored dedup
key changes nothing and emits nothing. -/
theorem check_stable (ts : StorageService.TimerSettings)
    (settings : Option ScheduleSettings) (day : Int) (time : String)
    (r : AgentStatus) (s : MonState)
    (hmon : ScheduleService.shouldMonitor true settings day time = true)
    (hls : s.lastStatus = some (UseFinesse.statusKey r)) :
    UseFinesse.checkAgentStatus ts settings day time true (some r) s = (s, []) := by
  unfold UseFinesse.checkAgentStatus
  simp [hmon, hls]

/-- Iterated polls from a state already keyed to the received snapshot stay
silent forever. -/
theorem runPolls_stable (ts : StorageService.TimerSettings)
    (settings : Option ScheduleSettings) (day : Int) (time : String)
    (r : AgentStatus) (s : MonState)
    (hmon : ScheduleService.shouldMonitor true settings day time = true)
    (hls : s.lastStatus = some (UseFinesse.statusKey r)) :
    ∀ n : Nat, UseFinesse.runPolls ts settings day time true (some r) n s = (s, []) := by
  intro n
  induction n with
  | zero => rfl
  | succ k ih =>
    show UseFinesse.runPolls ts settings day time true (some r) (k + 1) s = (s, [])
    unfold UseFinesse.runPolls
    rw [check_stable ts settings day time r s hmon hls]
    simp only [ih]
    rfl

/-- A within-hours transition to the sentinel `reasonCodeId = -1` sends an
immediate NOT_READY notification and a focus request, clearing any pending
pause timer. -/
theorem handle_sentinel_notifies (ts : StorageService.TimerSettings)
    (settings : Option ScheduleSettings) (day : Int) (time : String)
    (status : AgentStatus) (s : MonState)
    (hw : ScheduleService.isWithinWorkingHours settings day time = true)
    (hrc : status.reasonCodeId.bind parseIntJS = some (-1)) :
    UseFinesse.handleStatusNotifications ts settings day time status s
      = (⟨s.lastStatus, none⟩,
         [MonEvent.notification NotificationType.NOT_READY none,
          MonEvent.focusTab]) := by
  unfold UseFinesse.handleStatusNotifications UseFinesse.stopStatusCheck
  simp [hw, hrc]

/-- One poll tick emits at most one notification. -/
theorem check_notifies_at_most_once (ts : StorageService.TimerSettings)
    (settings : Option ScheduleSettings) (day : Int) (time : String)
    (isOpen : Bool) (response : Option AgentStatus) (s : MonState) :
    ((UseFinesse.checkAgentStatus ts settings day time isOpen response s).2.filter
        MonEvent.isNotification).length ≤ 1 := by
  have hh : ∀ (st : AgentStatus) (s1 : MonState),
      ((UseFinesse.handleStatusNotifications ts settings day time st s1).2.filter
        MonEvent.isNotification).length ≤ 1 := by
    intro st s1
    unfold UseFinesse.handleStatusNotifications
    split_ifs <;> simp [MonEvent.isNotification]
  unfold UseFinesse.checkAgentStatus
  cases response with
  | none => split_ifs <;> simp [MonEvent.isNotification]
  | some r =>
    dsimp only
    split_ifs with h1 h2
    · simp
    · exact hh r _
    · simp

/-- C1: over a run of consecutive successful monitored polls all returning
the same `(state, reasonCodeId)` pair, the events of the whole run are
exactly the events of the first tick — at most one notification in total,
and exactly one NOT_READY notification when the first tick is a transition
to the sentinel `-1` pair — never one per tick. -/
theorem repeated_identical_polls_notify_once (ts : StorageService.TimerSettings)
    (settings : Option ScheduleSettings) (day : Int) (time : String)
    (r : AgentStatus) (s : MonState) (n : Nat)
    (hmon : ScheduleService.shouldMonitor true settings day time = true) :
    ((UseFinesse.runPolls ts settings day time true (some r) (n + 1) s).2
       = (UseFinesse.checkAgentStatus ts settings day time true (some r) s).2)
    ∧ (((UseFinesse.runPolls ts settings day time true (some r) (n + 1) s).2.filter
          MonEvent.isNotification).length ≤ 1)
    ∧ (s.lastStatus ≠ some (UseFinesse.statusKey r) →
       r.reasonCodeId.bind parseIntJS = some (-1) →
       (UseFinesse.runPolls ts settings day time true (some r) (n + 1) s).2
         = [MonEvent.notification NotificationType.NOT_READY none,
            MonEvent.focusTab]) := by
  have hfirst : (UseFinesse.runPolls ts settings day time true (some r) (n + 1) s).2
      = (UseFinesse.checkAgentStatus ts settings day time true (some r) s).2 := by
    show ((UseFinesse.runPolls ts settings day time true (some r) n
        (UseFinesse.checkAgentStatus ts settings day time true (some r) s).1).1,
      (UseFinesse.checkAgentStatus ts settings day time true (some r) s).2
        ++ (UseFinesse.runPolls ts settings day time true (some r) n
            (UseFinesse.checkAgentStatus ts settings day time true (some r) s).1).2).2
      = _
    rw [runPolls_stable ts settings day time r _ hmon
      (check_sets_lastStatus ts settings day time r s hmon) n]
    simp
  refine ⟨hfirst, ?_, ?_⟩
  · rw [hfirst]
    exact check_notifies_at_most_once ts settings day time true (some r) s
  · intro hkey hrc
    rw [hfirst]
    unfold UseFinesse.checkAgentStatus
    simp only [hmon, Bool.not_true, Bool.false_eq_true, if_false, hkey,
      if_pos, ite_true]
    have hw : ScheduleService.isWithinWorkingHours settings day time = true := by
      unfold ScheduleService.shouldMonitor at hmon
      simpa using hmon
    rw [handle_sentinel_notifies ts settings day time r _ hw hrc,
      if_pos hkey]

/-- C1 witness: three identical sentinel polls from a fresh state produce
exactly one NOT_READY notification and one focus request in total. -/
theorem repeated_identical_polls_notify_once_witness :
    (UseFinesse.runPolls ⟨5, 30⟩ none 1 "09:00" true
        (some ⟨some "NOT_READY", some "-1", none⟩) 3 ⟨none, none⟩).2
      = [MonEvent.notification NotificationType.NOT_READY none,
         MonEvent.focusTab] :=
  (repeated_identical_polls_notify_once ⟨5, 30⟩ none 1 "09:00"
      ⟨some "NOT_READY", some "-1", none⟩ ⟨none, none⟩ 2 (by decide)).2.2
    (by decide) (by decide)

/-- C2: a within-hours transition whose parsed reason code is positive
sends nothing immediately and arms the single-shot pause-deadline timer;
when that timer fires it emits exactly one TIME_EXCEEDED notification
carrying the configured `pauseTimer` value plus a focus request, and a
second firing emits nothing. -/
theorem pause_code_defers_to_deadline_timer (ts : StorageService.TimerSettings)
    (settings : Option ScheduleSettings) (day : Int) (time : String)
    (status : AgentStatus) (s : MonState) (cd : Int)
    (hw : ScheduleService.isWithinWorkingHours settings day time = true)
    (hrc : status.reasonCodeId.bind parseIntJS = some cd) (hpos : 0 < cd) :
    (UseFinesse.handleStatusNotifications ts settings day time status s
       = (⟨s.lastStatus, some ts.pauseTimer⟩, []))
    ∧ (UseFinesse.firePauseTimer ⟨s.lastStatus, some ts.pauseTimer⟩
       = (⟨s.lastStatus, none⟩,
          [MonEvent.notification NotificationType.TIME_EXCEEDED
             (some ts.pauseTimer),
           MonEvent.focusTab]))
    ∧ (UseFinesse.firePauseTimer ⟨s.lastStatus, none⟩).2 = [] := by
  refine ⟨?_, rfl, rfl⟩
  have hne : cd ≠ -1 := by omega
  unfold UseFinesse.handleStatusNotifications UseFinesse.stopStatusCheck
  simp [hw, hrc, hne, hpos]

/-- C2 witness: a transition to reason code 2 with `pauseTimer = 30` arms
the timer silently, and the firing emits TIME_EXCEEDED with parameter 30
and a focus request. -/
theorem pause_code_defers_to_deadline_timer_witness :
    (UseFinesse.handleStatusNotifications ⟨5, 30⟩ none 1 "09:00"
        ⟨some "NOT_READY", some "2", none⟩ ⟨some "k", none⟩
      = (⟨some "k", some 30⟩, []))
    ∧ (UseFinesse.firePauseTimer ⟨some "k", some 30⟩
       = (⟨some "k", none⟩,
          [MonEvent.notification NotificationType.TIME_EXCEEDED (some 30),
           MonEvent.focusTab]))
    ∧ (UseFinesse.firePauseTimer ⟨some "k", none⟩).2 = [] :=
  pause_code_defers_to_deadline_timer ⟨5, 30⟩ none 1 "09:00"
    ⟨some "NOT_READY", some "2", none⟩ ⟨some "k", none⟩ 2 (by decide)
    (by decide) (by decide)
